import Mathlib

/-!
Shallow embedding of the do-dash-pro client-side task manager:
the mock backend (`src/services/todoApi.ts`), the sync-engine handlers
(`src/pages/Index.tsx`), the add-form guard (`AddToDoForm`) and the
list filter (`ToDoList`).

Conventions of the embedding:
* JS `Date` timestamps are `Nat` (milliseconds since epoch); each point
  where the source reads the clock (`new Date()`, `Date.now()`) takes the
  current time as an explicit `now` parameter.
* The random failure injection `shouldSimulateError()` is an explicit
  `fail : Bool` parameter giving the outcome of that draw for the call.
* `async`/`await` with `try`/`catch`/`finally` becomes a pure function from
  the pre-call state to the settled post-call state plus an outcome
  (`Except` when the handler re-throws, `Option` error when it swallows).
  The transient in-flight loading descriptor set at entry is always
  overwritten by the `finally` clause, so the settled state carries the
  cleared descriptor.
* The backend's module-level `mockTodos` array and the component's `todos`
  react state are both fields of one `SystemState`, threaded explicitly.
-/

namespace DoDash

/-- `Todo` interface from `src/types/todo.ts`: `description` is optional. -/
structure Todo where
  id : String
  title : String
  description : Option String
  completed : Bool
  createdAt : Nat
  updatedAt : Nat
deriving Repr, DecidableEq

/-- `CreateTodoInput` from `src/types/todo.ts`. -/
structure CreateTodoInput where
  title : String
  description : Option String
deriving Repr, DecidableEq

/-- `UpdateTodoInput` from `src/types/todo.ts`: all fields optional;
a `some` field models a key present in the JS object. -/
structure UpdateTodoInput where
  title : Option String
  description : Option String
  completed : Option Bool
deriving Repr, DecidableEq

/-- The error codes used by `todoApi.ts`. -/
inductive ErrorCode where
  | FETCH_ERROR
  | CREATE_ERROR
  | UPDATE_ERROR
  | DELETE_ERROR
  | NOT_FOUND
deriving Repr, DecidableEq

/-- `ApiError` from `todoApi.ts`: a message and an optional code. -/
structure ApiError where
  message : String
  code : Option ErrorCode
deriving Repr, DecidableEq

/-- Model of the JS `String.prototype.trim()`: drops whitespace characters
from both ends of the string. Written directly on the character list so
that it evaluates by kernel reduction. -/
def jsTrim (s : String) : String :=
  ⟨((s.data.dropWhile Char.isWhitespace).reverse.dropWhile Char.isWhitespace).reverse⟩

/-- One step of the stable insertion sort modelling the JS
`[...mockTodos].sort((a, b) => b.createdAt - a.createdAt)` copy-and-sort:
`x` is placed before the first element strictly older-keyed than it. -/
def insertCreatedDesc (x : Todo) : List Todo → List Todo
  | [] => [x]
  | y :: ys =>
    if y.createdAt < x.createdAt then x :: y :: ys else y :: insertCreatedDesc x ys

/-- Stable sort by `createdAt` descending (model of the JS stable `sort`
with comparator `(a, b) => b.createdAt - a.createdAt`). -/
def sortByCreatedAtDesc (l : List Todo) : List Todo :=
  l.foldr insertCreatedDesc []

/-- `TodoApiService.getAllTodos`: on injected failure throws `FETCH_ERROR`,
otherwise returns a sorted copy of `mockTodos` (state unchanged). -/
def getAllTodos (fail : Bool) (mockTodos : List Todo) :
    Except ApiError (List Todo) :=
  if fail then
    .error ⟨"Failed to fetch todos. Please check your connection.", some .FETCH_ERROR⟩
  else
    .ok (sortByCreatedAtDesc mockTodos)

/-- The JS expression `input.description?.trim() || ''` in
`TodoApiService.createTodo`: an absent description, or one trimming to the
empty (falsy) string, yields `""`; otherwise the trimmed description. -/
def normalizeDescription : Option String → String
  | none => ""
  | some s => if jsTrim s = "" then "" else jsTrim s

/-- `TodoApiService.createTodo`: on injected failure throws `CREATE_ERROR`;
otherwise builds the new todo (`id` from `Date.now().toString()`, trimmed
title, normalized description, `completed := false`, both timestamps `now`),
pushes it at the end of `mockTodos`, and returns it. -/
def createTodo (fail : Bool) (now : Nat) (input : CreateTodoInput)
    (mockTodos : List Todo) : Except ApiError (List Todo × Todo) :=
  if fail then
    .error ⟨"Failed to create todo. Please try again.", some .CREATE_ERROR⟩
  else
    let newTodo : Todo :=
      { id := toString now
        title := jsTrim input.title
        description := some (normalizeDescription input.description)
        completed := false
        createdAt := now
        updatedAt := now }
    .ok (mockTodos ++ [newTodo], newTodo)

/-- The JS spread `{ ...todo, ...input, updatedAt: new Date() }`:
fields present in `input` override, `updatedAt` is set to `now`,
`id` and `createdAt` are untouched. -/
def applyUpdate (todo : Todo) (input : UpdateTodoInput) (now : Nat) : Todo :=
  { todo with
    title := input.title.getD todo.title
    description := match input.description with
      | some d => some d
      | none => todo.description
    completed := input.completed.getD todo.completed
    updatedAt := now }

/-- `TodoApiService.updateTodo`: the injected-failure check (`UPDATE_ERROR`)
comes first, then `findIndex`; a missing id throws `NOT_FOUND`; otherwise
the todo at the found index is replaced by the merged todo, which is also
returned. The inner `none` branch of the index lookup is unreachable,
since `findIdx?` only returns valid indices. -/
def updateTodo (fail : Bool) (now : Nat) (id : String) (input : UpdateTodoInput)
    (mockTodos : List Todo) : Except ApiError (List Todo × Todo) :=
  if fail then
    .error ⟨"Failed to update todo. Please try again.", some .UPDATE_ERROR⟩
  else
    match mockTodos.findIdx? (fun todo => todo.id == id) with
    | none => .error ⟨"Todo not found", some .NOT_FOUND⟩
    | some todoIndex =>
      match mockTodos.get? todoIndex with
      | none => .error ⟨"Todo not found", some .NOT_FOUND⟩
      | some old =>
        let updatedTodo := applyUpdate old input now
        .ok (mockTodos.set todoIndex updatedTodo, updatedTodo)

/-- `TodoApiService.deleteTodo`: the injected-failure check (`DELETE_ERROR`)
comes first, then `findIndex`; a missing id throws `NOT_FOUND`; otherwise
the todo at the found index is spliced out. -/
def deleteTodo (fail : Bool) (id : String) (mockTodos : List Todo) :
    Except ApiError (List Todo) :=
  if fail then
    .error ⟨"Failed to delete todo. Please try again.", some .DELETE_ERROR⟩
  else
    match mockTodos.findIdx? (fun todo => todo.id == id) with
    | none => .error ⟨"Todo not found", some .NOT_FOUND⟩
    | some todoIndex => .ok (mockTodos.eraseIdx todoIndex)

/-- Operation kinds of `LoadingState.operation` in `src/types/todo.ts`. -/
inductive OperationKind where
  | create
  | update
  | delete
  | fetch
deriving Repr, DecidableEq

/-- `LoadingState` from `src/types/todo.ts`. -/
structure LoadingState where
  isLoading : Bool
  operation : Option OperationKind
  targetId : Option String
deriving Repr, DecidableEq

/-- `setLoadingState({ isLoading: false })`: the cleared (idle) descriptor,
with `operation` and `targetId` absent. -/
def idleLoading : LoadingState := ⟨false, none, none⟩

/-- Combined state: the backend's module-level `mockTodos` array plus the
`Index` component's react state (`todos`, `loadingState`, `isInitialLoading`). -/
structure SystemState where
  mockTodos : List Todo
  todos : List Todo
  loadingState : LoadingState
  isInitialLoading : Bool
deriving Repr, DecidableEq

/-- `fetchTodos` in the mount effect of `Index`: on success replaces `todos`
with the fetched (sorted) data; on failure only toasts; the `finally` clause
clears `isInitialLoading` either way. -/
def fetchTodos (fail : Bool) (s : SystemState) : SystemState × Option ApiError :=
  match getAllTodos fail s.mockTodos with
  | .ok data => ({ s with todos := data, isInitialLoading := false }, none)
  | .error e => ({ s with isInitialLoading := false }, some e)

/-- `handleCreateTodo` in `Index`: calls the backend; on success prepends the
returned todo to `todos`; on failure re-throws; `finally` clears the
loading descriptor in both branches. -/
def handleCreateTodo (fail : Bool) (now : Nat) (input : CreateTodoInput)
    (s : SystemState) : SystemState × Except ApiError Unit :=
  match createTodo fail now input s.mockTodos with
  | .ok (mockTodos2, newTodo) =>
    ({ s with
        mockTodos := mockTodos2
        todos := newTodo :: s.todos
        loadingState := idleLoading }, .ok ())
  | .error e => ({ s with loadingState := idleLoading }, .error e)

/-- `handleUpdateTodo` in `Index`: calls the backend; on success maps over
`todos`, replacing the entry whose id matches with the returned todo; on
failure re-throws; `finally` clears the loading descriptor. -/
def handleUpdateTodo (fail : Bool) (now : Nat) (id : String)
    (input : UpdateTodoInput) (s : SystemState) :
    SystemState × Except ApiError Unit :=
  match updateTodo fail now id input s.mockTodos with
  | .ok (mockTodos2, updated) =>
    ({ s with
        mockTodos := mockTodos2
        todos := s.todos.map (fun todo => if todo.id == id then updated else todo)
        loadingState := idleLoading }, .ok ())
  | .error e => ({ s with loadingState := idleLoading }, .error e)

/-- `handleDeleteTodo` in `Index`: calls the backend; on success filters the
deleted id out of `todos`; on failure only toasts (the error is not
re-raised); `finally` clears the loading descriptor. -/
def handleDeleteTodo (fail : Bool) (id : String) (s : SystemState) :
    SystemState × Option ApiError :=
  match deleteTodo fail id s.mockTodos with
  | .ok mockTodos2 =>
    ({ s with
        mockTodos := mockTodos2
        todos := s.todos.filter (fun todo => todo.id != id)
        loadingState := idleLoading }, none)
  | .error e => ({ s with loadingState := idleLoading }, some e)

/-- The `Promise.all(completedTodos.map(todo => todoApi.deleteTodo(todo.id)))`
of `handleBulkDelete`: every delete runs against the shared `mockTodos`
(each splice is atomic), and the aggregate succeeds only if every single
delete did. Each job carries its own failure-injection outcome. -/
def runDeletes (jobs : List (Bool × String)) (mockTodos : List Todo) :
    List Todo × Bool :=
  match jobs with
  | [] => (mockTodos, true)
  | (fail, id) :: rest =>
    match deleteTodo fail id mockTodos with
    | .ok mockTodos2 =>
      let r := runDeletes rest mockTodos2
      (r.1, r.2)
    | .error _ =>
      let r := runDeletes rest mockTodos
      (r.1, false)

/-- `handleBulkDelete` in `Index`: snapshots the completed todos, issues one
backend delete per snapshot id, and on overall success filters every
completed todo out of `todos`; on aggregate failure only toasts (the local
collection is left as it was); `finally` clears the loading descriptor. -/
def handleBulkDelete (fails : List Bool) (s : SystemState) :
    SystemState × Option ApiError :=
  let completedTodos := s.todos.filter (fun todo => todo.completed)
  let r := runDeletes (fails.zip (completedTodos.map (fun todo => todo.id))) s.mockTodos
  if r.2 then
    ({ s with
        mockTodos := r.1
        todos := s.todos.filter (fun todo => !todo.completed)
        loadingState := idleLoading }, none)
  else
    ({ s with mockTodos := r.1, loadingState := idleLoading },
      some ⟨"Failed to delete completed tasks. Please try again.", none⟩)

/-- `AddToDoForm.handleSubmit`: the guard `if (!title.trim()) return;`
rejects an empty-after-trim title with no call at all; otherwise it submits
`title.trim()` and `description.trim() || undefined` to `handleCreateTodo`. -/
def handleSubmit (fail : Bool) (now : Nat) (title description : String)
    (s : SystemState) : SystemState × Except ApiError Unit :=
  if jsTrim title = "" then (s, .ok ())
  else
    handleCreateTodo fail now
      { title := jsTrim title
        description := if jsTrim description = "" then none else some (jsTrim description) } s

/-- `TodoFilter` from `src/types/todo.ts`. -/
inductive TodoFilter where
  | all
  | active
  | completed
deriving Repr, DecidableEq

/-- `filteredTodos` in `ToDoList`: `active` keeps the not-completed todos,
`completed` the completed ones, and the default (`all`) keeps everything. -/
def filteredTodos (filter : TodoFilter) (todos : List Todo) : List Todo :=
  todos.filter (fun todo =>
    match filter with
    | .active => !todo.completed
    | .completed => todo.completed
    | .all => true)

/-! ## Sample data for the concrete witnesses -/

/-- A completed sample task. -/
def sampleA : Todo :=
  { id := "a1", title := "Alpha", description := some "first"
    completed := true, createdAt := 30, updatedAt := 31 }

/-- A not-completed sample task. -/
def sampleB : Todo :=
  { id := "b2", title := "Beta", description := none
    completed := false, createdAt := 20, updatedAt := 20 }

/-- A sample system state holding `sampleA` and `sampleB` on both sides. -/
def sampleState : SystemState :=
  { mockTodos := [sampleA, sampleB]
    todos := [sampleA, sampleB]
    loadingState := idleLoading
    isInitialLoading := false }

/-! ## Helper lemmas -/

/-- In a store with pairwise-distinct ids, `findIndex` on a member's id
finds exactly that member. -/
theorem findIdx_get_of_mem_nodup {l : List Todo} {T : Todo}
    (hmem : T ∈ l) (hnd : (l.map Todo.id).Nodup) :
    ∃ i, l.findIdx? (fun todo => todo.id == T.id) = some i ∧
      l.get? i = some T := by
  induction l with
  | nil => cases hmem
  | cons u rest ih =>
    by_cases hu : u.id = T.id
    · have hTu : T = u := by
        rcases List.mem_cons.mp hmem with h | h
        · exact h
        · exfalso
          have hm : T.id ∈ rest.map Todo.id := List.mem_map_of_mem _ h
          rw [List.map_cons] at hnd
          exact (List.nodup_cons.mp hnd).1 (hu ▸ hm)
      exact ⟨0, by simp [List.findIdx?_cons, hu], by simp [hTu]⟩
    · have hmem2 : T ∈ rest := by
        rcases List.mem_cons.mp hmem with h | h
        · exact absurd (congrArg Todo.id h.symm) hu
        · exact h
      have hnd2 : (rest.map Todo.id).Nodup := by
        rw [List.map_cons] at hnd
        exact (List.nodup_cons.mp hnd).2
      obtain ⟨i, h1, h2⟩ := ih hmem2 hnd2
      refine ⟨i + 1, ?_, by simpa using h2⟩
      simp [List.findIdx?_cons, hu, List.findIdx?_succ, h1]

/-- A successful backend update of a member of a distinct-id store replaces
exactly that member by the merged todo and returns the merged todo. -/
theorem updateTodo_of_mem_nodup (now : Nat) (input : UpdateTodoInput)
    {l : List Todo} {T : Todo} (hmem : T ∈ l)
    (hnd : (l.map Todo.id).Nodup) :
    ∃ i, l.get? i = some T ∧
      updateTodo false now T.id input l =
        .ok (l.set i (applyUpdate T input now), applyUpdate T input now) := by
  obtain ⟨i, h1, h2⟩ := findIdx_get_of_mem_nodup hmem hnd
  refine ⟨i, h2, ?_⟩
  have h3 : l[i]? = some T := by simpa [← List.get?_eq_getElem?] using h2
  simp [updateTodo, h1, h3]

/-- Replacing every id-matching entry of a list by a todo `u` carrying that
very id turns the id-filtered view into copies of `u`, one per former
match. -/
theorem filter_map_replace (l : List Todo) (x : String) (u : Todo)
    (hu : u.id = x) :
    (l.map (fun t => if t.id == x then u else t)).filter
        (fun t => t.id == x) =
      List.replicate ((l.filter (fun t => t.id == x)).length) u := by
  induction l with
  | nil => rfl
  | cons t rest ih =>
    by_cases h : t.id = x
    · simp [List.filter_cons, h, hu, List.replicate_succ] at ih ⊢
      exact ih
    · simp [List.filter_cons, h] at ih ⊢
      exact ih

/-- If some store member carries the id, `findIndex` on that id succeeds. -/
theorem findIdx_some_of_exists {l : List Todo} {x : String}
    (h : ∃ u ∈ l, u.id = x) :
    ∃ i, l.findIdx? (fun todo => todo.id == x) = some i := by
  have hany : l.any (fun todo => todo.id == x) = true := by
    obtain ⟨u, hu, hux⟩ := h
    exact List.any_eq_true.mpr ⟨u, hu, by simp [hux]⟩
  have h2 := @List.findIdx?_isSome Todo l (fun todo => todo.id == x)
  rw [hany] at h2
  exact Option.isSome_iff_exists.mp h2

/-! ## Claims -/

/-- C1: a create submission whose title is empty after trimming is rejected
locally: no backend call is made and the whole system state (in particular
the local task collection and the backend store) is unchanged, for every
failure-injection outcome and clock value. -/
theorem create_rejects_empty_title (fail : Bool) (now : Nat)
    (title description : String) (s : SystemState)
    (h : jsTrim title = "") :
    handleSubmit fail now title description s = (s, .ok ()) := by
  simp [handleSubmit, h]

/-- Witness for C1 at the spec's own example input `createTask("  ", …)`. -/
theorem create_rejects_empty_title_witness :
    jsTrim "  " = "" ∧
      handleSubmit true 99 "  " "note" sampleState = (sampleState, .ok ()) :=
  ⟨by decide, create_rejects_empty_title true 99 "  " "note" sampleState (by decide)⟩

/-- C2: in the backend update and delete operations the simulated-failure
check precedes the existence check: with failure injected the result is
`UPDATE_ERROR` (resp. `DELETE_ERROR`) for every id and store, and a
`NOT_FOUND` error can only arise when failure injection did not fire. -/
theorem failure_checked_before_existence (fail : Bool) (now : Nat)
    (id : String) (input : UpdateTodoInput) (mockTodos : List Todo) :
    updateTodo true now id input mockTodos =
        .error ⟨"Failed to update todo. Please try again.", some .UPDATE_ERROR⟩ ∧
    deleteTodo true id mockTodos =
        .error ⟨"Failed to delete todo. Please try again.", some .DELETE_ERROR⟩ ∧
    (∀ e, updateTodo fail now id input mockTodos = .error e →
        e.code = some .NOT_FOUND → fail = false) ∧
    (∀ e, deleteTodo fail id mockTodos = .error e →
        e.code = some .NOT_FOUND → fail = false) := by
  refine ⟨rfl, rfl, ?_, ?_⟩ <;> intro e he hc <;> cases fail <;> try rfl
  · rw [updateTodo] at he
    simp only [if_pos trivial] at he
    cases he
    simp at hc
  · rw [deleteTodo] at he
    simp only [if_pos trivial] at he
    cases he
    simp at hc

/-- Witness for C2: injected failure masks existence even on an empty store. -/
theorem failure_checked_before_existence_witness :
    updateTodo true 7 "a1" ⟨none, none, some true⟩ [] =
        .error ⟨"Failed to update todo. Please try again.", some .UPDATE_ERROR⟩ ∧
    deleteTodo true "zzz" [] =
        .error ⟨"Failed to delete todo. Please try again.", some .DELETE_ERROR⟩ :=
  ⟨(failure_checked_before_existence true 7 "a1" ⟨none, none, some true⟩ []).1,
   (failure_checked_before_existence true 7 "zzz" ⟨none, none, some true⟩ []).2.1⟩

/-- C9: the derived visible-tasks view: `all` returns the collection itself,
`active` exactly the not-completed tasks, `completed` exactly the completed
ones; `active` and `completed` are disjoint and jointly exhaustive, with
lengths summing to the collection's length. -/
theorem visibleTasks_partition (todos : List Todo) :
    filteredTodos .all todos = todos ∧
    (∀ t, t ∈ filteredTodos .active todos ↔ t ∈ todos ∧ t.completed = false) ∧
    (∀ t, t ∈ filteredTodos .completed todos ↔ t ∈ todos ∧ t.completed = true) ∧
    (∀ t, ¬(t ∈ filteredTodos .active todos ∧ t ∈ filteredTodos .completed todos)) ∧
    (∀ t ∈ todos, t ∈ filteredTodos .active todos ∨ t ∈ filteredTodos .completed todos) ∧
    (filteredTodos .active todos).length + (filteredTodos .completed todos).length
      = todos.length := by
  refine ⟨?_, ?_, ?_, ?_, ?_, ?_⟩
  · simp [filteredTodos]
  · intro t; simp [filteredTodos, List.mem_filter]
  · intro t; simp [filteredTodos, List.mem_filter]
  · intro t h
    rcases h with ⟨ha, hc⟩
    simp [filteredTodos, List.mem_filter] at ha hc
    exact absurd hc.2 (by simp [ha.2])
  · intro t ht
    by_cases h : t.completed
    · right; simp [filteredTodos, List.mem_filter, ht, h]
    · left; simp [filteredTodos, List.mem_filter, ht, h]
  · induction todos with
    | nil => rfl
    | cons x xs ih =>
      by_cases h : x.completed <;>
        simp [filteredTodos, List.filter_cons, h] at ih ⊢ <;> omega

/-- Witness for C9 on a two-element collection. -/
theorem visibleTasks_partition_witness :
    filteredTodos .all [sampleA, sampleB] = [sampleA, sampleB] ∧
    (filteredTodos .active [sampleA, sampleB]).length +
        (filteredTodos .completed [sampleA, sampleB]).length = 2 :=
  ⟨(visibleTasks_partition [sampleA, sampleB]).1,
   (visibleTasks_partition [sampleA, sampleB]).2.2.2.2.2⟩

/-- C10: every successfully created task carries a defined description:
the stored description is exactly the normalization of the input (absent or
blank-after-trim becomes `""`, otherwise the trimmed text), never absent. -/
theorem create_description_defined (fail : Bool) (now : Nat)
    (input : CreateTodoInput) (l l2 : List Todo) (t : Todo)
    (h : createTodo fail now input l = .ok (l2, t)) :
    t.description = some (normalizeDescription input.description) ∧
    t.description.isSome = true ∧
    (input.description = none → t.description = some "") ∧
    (∀ d, input.description = some d → jsTrim d = "" → t.description = some "") ∧
    (∀ d, input.description = some d → jsTrim d ≠ "" →
        t.description = some (jsTrim d)) := by
  cases fail
  · have hh := h
    rw [show createTodo false now input l =
        .ok (l ++ [{ id := toString now, title := jsTrim input.title
                     description := some (normalizeDescription input.description)
                     completed := false, createdAt := now, updatedAt := now }],
            { id := toString now, title := jsTrim input.title
              description := some (normalizeDescription input.description)
              completed := false, createdAt := now, updatedAt := now }) from rfl] at hh
    simp only [Except.ok.injEq, Prod.mk.injEq] at hh
    obtain ⟨h1, h2⟩ := hh
    subst h2
    refine ⟨rfl, rfl, ?_, ?_, ?_⟩
    · intro hd; simp [normalizeDescription, hd]
    · intro d hd htrim; simp [normalizeDescription, hd, htrim]
    · intro d hd htrim; simp [normalizeDescription, hd, htrim]
  · exact Except.noConfusion h

/-- Witness for C10: creating with description `"  "` stores `some ""`. -/
theorem create_description_defined_witness :
    createTodo false 5 ⟨"hi", some "  "⟩ [] =
        .ok ([⟨"5", "hi", some "", false, 5, 5⟩], ⟨"5", "hi", some "", false, 5, 5⟩) ∧
    (⟨"5", "hi", some "", false, 5, 5⟩ : Todo).description = some "" :=
  ⟨rfl,
   (create_description_defined false 5 ⟨"hi", some "  "⟩ []
      [⟨"5", "hi", some "", false, 5, 5⟩] ⟨"5", "hi", some "", false, 5, 5⟩
      rfl).2.2.2.1 "  " rfl (by decide)⟩

/-- C4: a single-task mutation (create, update, delete) that fails at the
backend leaves the engine's local task collection exactly as it was:
no partial effect of the failed mutation is applied locally. -/
theorem no_partial_effect_on_failure (fail : Bool) (now : Nat)
    (input : CreateTodoInput) (uinput : UpdateTodoInput) (id : String)
    (s : SystemState) :
    (∀ e, (handleCreateTodo fail now input s).2 = .error e →
        (handleCreateTodo fail now input s).1.todos = s.todos) ∧
    (∀ e, (handleUpdateTodo fail now id uinput s).2 = .error e →
        (handleUpdateTodo fail now id uinput s).1.todos = s.todos) ∧
    (∀ e, (handleDeleteTodo fail id s).2 = some e →
        (handleDeleteTodo fail id s).1.todos = s.todos) := by
  refine ⟨?_, ?_, ?_⟩
  · intro e he
    rcases hc : createTodo fail now input s.mockTodos with err | ⟨m, t⟩ <;>
      simp [handleCreateTodo, hc] at he ⊢
  · intro e he
    rcases hc : updateTodo fail now id uinput s.mockTodos with err | ⟨m, t⟩ <;>
      simp [handleUpdateTodo, hc] at he ⊢
  · intro e he
    rcases hc : deleteTodo fail id s.mockTodos with err | m <;>
      simp [handleDeleteTodo, hc] at he ⊢

/-- Witness for C4: a failure-injected delete of `sampleA` leaves the local
collection of `sampleState` untouched. -/
theorem no_partial_effect_on_failure_witness :
    (handleDeleteTodo true "a1" sampleState).1.todos = sampleState.todos :=
  (no_partial_effect_on_failure true 0 ⟨"x", none⟩ ⟨none, none, none⟩ "a1"
      sampleState).2.2 ⟨"Failed to delete todo. Please try again.", some .DELETE_ERROR⟩
    rfl

/-- C5: after every engine operation settles — fetch, create, update, delete,
bulk delete, in success and failure alike, and the locally rejected create
submission from an idle state — the loading descriptor is idle again
(for the initial fetch, the `isInitialLoading` flag is cleared). -/
theorem descriptor_reset (fail : Bool) (now : Nat) (input : CreateTodoInput)
    (uinput : UpdateTodoInput) (id : String) (fails : List Bool)
    (title description : String) (s : SystemState) :
    (fetchTodos fail s).1.isInitialLoading = false ∧
    (handleCreateTodo fail now input s).1.loadingState = idleLoading ∧
    (handleUpdateTodo fail now id uinput s).1.loadingState = idleLoading ∧
    (handleDeleteTodo fail id s).1.loadingState = idleLoading ∧
    (handleBulkDelete fails s).1.loadingState = idleLoading ∧
    (s.loadingState = idleLoading →
      (handleSubmit fail now title description s).1.loadingState = idleLoading) := by
  refine ⟨?_, ?_, ?_, ?_, ?_, ?_⟩
  · rcases hg : getAllTodos fail s.mockTodos with e | d <;> simp [fetchTodos, hg]
  · rcases hc : createTodo fail now input s.mockTodos with e | ⟨m, t⟩ <;>
      simp [handleCreateTodo, hc]
  · rcases hc : updateTodo fail now id uinput s.mockTodos with e | ⟨m, t⟩ <;>
      simp [handleUpdateTodo, hc]
  · rcases hc : deleteTodo fail id s.mockTodos with e | m <;>
      simp [handleDeleteTodo, hc]
  · simp only [handleBulkDelete]
    split <;> rfl
  · intro h
    by_cases ht : jsTrim title = ""
    · simp [handleSubmit, ht, h]
    · rcases hc : createTodo fail now
          ⟨jsTrim title, if jsTrim description = "" then none
            else some (jsTrim description)⟩ s.mockTodos with e | ⟨m, t⟩ <;>
        simp [handleSubmit, ht, handleCreateTodo, hc]

/-- Witness for C5: a failure-injected bulk delete from `sampleState` ends
with the idle descriptor. -/
theorem descriptor_reset_witness :
    (handleBulkDelete [true] sampleState).1.loadingState = idleLoading :=
  (descriptor_reset true 3 ⟨"x", none⟩ ⟨none, none, none⟩ "a1" [true] "t" "d"
      sampleState).2.2.2.2.1

/-- C3: a successful `updateTask(T.id, partial)` on a present task `T`
(unique at its id locally, id present in the backend store with distinct
ids) replaces the task at `T.id` by `T` merged with exactly the provided
fields and a fresh `updatedAt`, leaving `createdAt` untouched; exactly one
task with `T.id` exists afterwards, and for `{completed := true}` the merge
is literally `T` with `completed := true` and `updatedAt := now`. -/
theorem update_replace_invariant (now : Nat) (input : UpdateTodoInput)
    (s : SystemState) (T : Todo)
    (hb : T ∈ s.mockTodos) (hnd : (s.mockTodos.map Todo.id).Nodup)
    (hl : s.todos.filter (fun t => t.id == T.id) = [T])
    (hnow : T.updatedAt ≤ now) :
    (handleUpdateTodo false now T.id input s).2 = .ok () ∧
    (handleUpdateTodo false now T.id input s).1.todos.filter
        (fun t => t.id == T.id) = [applyUpdate T input now] ∧
    (handleUpdateTodo false now T.id input s).1.todos.countP
        (fun t => t.id == T.id) = 1 ∧
    (applyUpdate T input now).createdAt = T.createdAt ∧
    (applyUpdate T input now).updatedAt = now ∧
    T.updatedAt ≤ (applyUpdate T input now).updatedAt ∧
    (applyUpdate T input now).title = input.title.getD T.title ∧
    (applyUpdate T input now).completed = input.completed.getD T.completed ∧
    applyUpdate T ⟨none, none, some true⟩ now =
      { T with completed := true, updatedAt := now } := by
  obtain ⟨i, hg, hu⟩ := updateTodo_of_mem_nodup now input hb hnd
  have htodos : (handleUpdateTodo false now T.id input s).1.todos =
      s.todos.map
        (fun todo => if todo.id == T.id then applyUpdate T input now else todo) := by
    simp [handleUpdateTodo, hu]
  have hfil : (handleUpdateTodo false now T.id input s).1.todos.filter
      (fun t => t.id == T.id) = [applyUpdate T input now] := by
    rw [htodos,
      filter_map_replace s.todos T.id (applyUpdate T input now) rfl, hl]
    rfl
  refine ⟨by simp [handleUpdateTodo, hu], hfil, ?_, rfl, rfl, hnow, rfl, rfl, rfl⟩
  rw [List.countP_eq_length_filter, hfil]
  rfl

/-- Witness for C3: toggling `sampleB` complete in `sampleState` at time 40
leaves exactly one task at its id, the toggled one. -/
theorem update_replace_invariant_witness :
    (handleUpdateTodo false 40 sampleB.id ⟨none, none, some true⟩
        sampleState).1.todos.filter (fun t => t.id == sampleB.id) =
      [applyUpdate sampleB ⟨none, none, some true⟩ 40] ∧
    applyUpdate sampleB ⟨none, none, some true⟩ 40 =
      { sampleB with completed := true, updatedAt := 40 } :=
  ⟨(update_replace_invariant 40 ⟨none, none, some true⟩ sampleState sampleB
      (by decide) (by decide) (by decide) (by decide)).2.1,
   (update_replace_invariant 40 ⟨none, none, some true⟩ sampleState sampleB
      (by decide) (by decide) (by decide) (by decide)).2.2.2.2.2.2.2.2⟩

/-- C8: after a successful `deleteTask(T.id)` no task with `T.id` remains in
the local collection; the survivors are exactly the original tasks with a
different id, each byte-for-byte unchanged (the very same `Todo` value). -/
theorem delete_frame_invariant (s : SystemState) (T : Todo)
    (hb : ∃ u ∈ s.mockTodos, u.id = T.id) (_hT : T ∈ s.todos) :
    (handleDeleteTodo false T.id s).2 = none ∧
    (∀ t ∈ (handleDeleteTodo false T.id s).1.todos, t.id ≠ T.id) ∧
    (handleDeleteTodo false T.id s).1.todos =
        s.todos.filter (fun t => t.id != T.id) ∧
    (∀ t ∈ s.todos, t.id ≠ T.id → t ∈ (handleDeleteTodo false T.id s).1.todos) ∧
    (∀ t ∈ (handleDeleteTodo false T.id s).1.todos, t ∈ s.todos) := by
  obtain ⟨i, hidx⟩ := findIdx_some_of_exists hb
  have hdel : deleteTodo false T.id s.mockTodos =
      .ok (s.mockTodos.eraseIdx i) := by
    simp [deleteTodo, hidx]
  have htodos : (handleDeleteTodo false T.id s).1.todos =
      s.todos.filter (fun t => t.id != T.id) := by
    simp [handleDeleteTodo, hdel]
  refine ⟨by simp [handleDeleteTodo, hdel], ?_, htodos, ?_, ?_⟩
  · intro t ht2
    rw [htodos] at ht2
    simpa using (List.mem_filter.mp ht2).2
  · intro t ht2 hne
    rw [htodos]
    exact List.mem_filter.mpr ⟨ht2, by simpa using hne⟩
  · intro t ht2
    rw [htodos] at ht2
    exact (List.mem_filter.mp ht2).1

/-- Witness for C8: deleting `sampleA` from `sampleState` succeeds and
leaves exactly the filtered collection (that is, `[sampleB]`). -/
theorem delete_frame_invariant_witness :
    (handleDeleteTodo false sampleA.id sampleState).2 = none ∧
    (handleDeleteTodo false sampleA.id sampleState).1.todos =
      sampleState.todos.filter (fun t => t.id != sampleA.id) :=
  ⟨(delete_frame_invariant sampleState sampleA (by decide) (by decide)).1,
   (delete_frame_invariant sampleState sampleA (by decide) (by decide)).2.2.1⟩

/-- Display order sorted by `createdAt` descending: every task is at least
as new as each task after it. -/
def sortedDesc (l : List Todo) : Prop :=
  l.Pairwise (fun a b => b.createdAt ≤ a.createdAt)

/-- Membership in an insertion step. -/
theorem mem_insertCreatedDesc {x t : Todo} {l : List Todo} :
    t ∈ insertCreatedDesc x l ↔ t = x ∨ t ∈ l := by
  induction l with
  | nil => simp [insertCreatedDesc]
  | cons y ys ih =>
    by_cases h : y.createdAt < x.createdAt
    · simp [insertCreatedDesc, h]
    · simp [insertCreatedDesc, h, ih]
      tauto

/-- Inserting into a descending-sorted list keeps it descending-sorted. -/
theorem sortedDesc_insertCreatedDesc {x : Todo} {l : List Todo}
    (h : sortedDesc l) : sortedDesc (insertCreatedDesc x l) := by
  induction l with
  | nil => simp [insertCreatedDesc, sortedDesc]
  | cons y ys ih =>
    rw [sortedDesc, List.pairwise_cons] at h
    obtain ⟨hy, hys⟩ := h
    by_cases hc : y.createdAt < x.createdAt
    · rw [sortedDesc]
      simp only [insertCreatedDesc]
      rw [if_pos hc, List.pairwise_cons]
      refine ⟨?_, List.pairwise_cons.mpr ⟨hy, hys⟩⟩
      intro b hb
      rcases List.mem_cons.mp hb with hby | hbys
      · exact hby ▸ Nat.le_of_lt hc
      · exact Nat.le_trans (hy b hbys) (Nat.le_of_lt hc)
    · rw [sortedDesc]
      simp only [insertCreatedDesc]
      rw [if_neg hc, List.pairwise_cons]
      refine ⟨?_, ih hys⟩
      intro b hb
      rcases mem_insertCreatedDesc.mp hb with hbx | hbys
      · exact hbx ▸ Nat.le_of_not_lt hc
      · exact hy b hbys

/-- The backend's copy-and-sort yields a descending-sorted list. -/
theorem sortedDesc_sortByCreatedAtDesc (l : List Todo) :
    sortedDesc (sortByCreatedAtDesc l) := by
  induction l with
  | nil => simp [sortByCreatedAtDesc, sortedDesc]
  | cons x xs ih =>
    rw [sortByCreatedAtDesc, List.foldr_cons]
    exact sortedDesc_insertCreatedDesc ih

/-- C6: a successful `fetchAll` leaves the local collection sorted by
`createdAt` descending; a successful create on a sorted collection whose
tasks all predate `now` prepends the returned task (created at `now`) at
the head, and the result is again sorted by `createdAt` descending. -/
theorem ordering_invariant (fail : Bool) (now : Nat) (input : CreateTodoInput)
    (s : SystemState)
    (hsorted : sortedDesc s.todos) (hage : ∀ t ∈ s.todos, t.createdAt ≤ now) :
    ((fetchTodos fail s).2 = none → sortedDesc (fetchTodos fail s).1.todos) ∧
    (∃ newTodo,
      (handleCreateTodo false now input s).2 = .ok () ∧
      (handleCreateTodo false now input s).1.todos = newTodo :: s.todos ∧
      newTodo.createdAt = now ∧
      sortedDesc (handleCreateTodo false now input s).1.todos) := by
  constructor
  · intro hok
    cases fail
    · have hts : (fetchTodos false s).1.todos = sortByCreatedAtDesc s.mockTodos := by
        simp [fetchTodos, getAllTodos]
      rw [hts]
      exact sortedDesc_sortByCreatedAtDesc _
    · exact absurd hok (by simp [fetchTodos, getAllTodos])
  · have hc : createTodo false now input s.mockTodos =
        .ok (s.mockTodos ++
            [{ id := toString now, title := jsTrim input.title
               description := some (normalizeDescription input.description)
               completed := false, createdAt := now, updatedAt := now }],
          { id := toString now, title := jsTrim input.title
            description := some (normalizeDescription input.description)
            completed := false, createdAt := now, updatedAt := now }) := rfl
    have hts : (handleCreateTodo false now input s).1.todos =
        { id := toString now, title := jsTrim input.title
          description := some (normalizeDescription input.description)
          completed := false, createdAt := now, updatedAt := now } :: s.todos := by
      simp [handleCreateTodo, hc]
    refine ⟨_, by simp [handleCreateTodo, hc], hts, rfl, ?_⟩
    rw [hts, sortedDesc, List.pairwise_cons]
    exact ⟨fun b hb => hage b hb, hsorted⟩

/-- Witness for C6: fetching from `sampleState` succeeds and yields a
descending-sorted collection. -/
theorem ordering_invariant_witness :
    (fetchTodos false sampleState).2 = none ∧
      sortedDesc (fetchTodos false sampleState).1.todos :=
  ⟨rfl, (ordering_invariant false 50 ⟨"t", none⟩ sampleState
      (by simp [sortedDesc, sampleState, sampleA, sampleB])
      (by simp [sampleState, sampleA, sampleB])).1 rfl⟩

/-- C7: `bulkDeleteCompleted` snapshots the completed tasks and, when every
issued backend delete succeeds, removes from the local collection exactly
the snapshotted (completed) tasks and keeps every non-completed task;
the survivors are exactly the non-completed originals. -/
theorem bulk_delete_removes_completed (fails : List Bool) (s : SystemState)
    (h : (handleBulkDelete fails s).2 = none) :
    (handleBulkDelete fails s).1.todos =
        s.todos.filter (fun todo => !todo.completed) ∧
    (∀ t ∈ s.todos, t.completed = false →
        t ∈ (handleBulkDelete fails s).1.todos) ∧
    (∀ t ∈ (handleBulkDelete fails s).1.todos,
        t.completed = false ∧ t ∈ s.todos) ∧
    (∀ t ∈ s.todos,
        (t ∈ s.todos.filter (fun todo => todo.completed) ↔
          t ∉ (handleBulkDelete fails s).1.todos)) := by
  by_cases hr : (runDeletes
      (fails.zip ((s.todos.filter (fun todo => todo.completed)).map
        (fun todo => todo.id))) s.mockTodos).2 = true
  · have htodos : (handleBulkDelete fails s).1.todos =
        s.todos.filter (fun todo => !todo.completed) := by
      simp [handleBulkDelete, hr]
    refine ⟨htodos, ?_, ?_, ?_⟩
    · intro t ht hc
      rw [htodos]
      exact List.mem_filter.mpr ⟨ht, by simp [hc]⟩
    · intro t ht
      rw [htodos] at ht
      have h2 := List.mem_filter.mp ht
      exact ⟨by simpa using h2.2, h2.1⟩
    · intro t ht
      rw [htodos]
      constructor
      · intro hmem hmem2
        have h1 := (List.mem_filter.mp hmem).2
        have h2 := (List.mem_filter.mp hmem2).2
        simp at h1 h2
        exact absurd h1 (by simp [h2])
      · intro hnot
        refine List.mem_filter.mpr ⟨ht, ?_⟩
        by_contra hcomp
        exact hnot (List.mem_filter.mpr ⟨ht, by simpa using hcomp⟩)
  · exact absurd h (by simp [handleBulkDelete, hr])

/-- Witness for C7, the spec's own scenario: from a collection holding
completed `sampleA` and active `sampleB`, a fully successful bulk delete
leaves `[sampleB]` only. -/
theorem bulk_delete_removes_completed_witness :
    (handleBulkDelete [false] sampleState).2 = none ∧
    (handleBulkDelete [false] sampleState).1.todos = [sampleB] := by
  refine ⟨rfl, ?_⟩
  rw [(bulk_delete_removes_completed [false] sampleState rfl).1]
  rfl

end DoDash
